import Mathlib

/-!
Verification of the 1dca elementary-cellular-automaton simulator.

This file shallowly embeds the simulation core of the repository:
the rule-application engine (`step` in `src/store/useStore.ts`,
`src/store/useSimulationStore.ts` and the factory-based store), the
rule-number-to-toggle-table derivations, the zustand store actions that
maintain the sliding history window, the viewport metric calculations,
the CPU (Canvas2D) and GPU (WebGL) renderer state machines, and the
renderer factory.  JavaScript arrays become Lean lists, JavaScript
numbers become `Nat`/`Int` (with `Int.fdiv` for `Math.floor` of a
quotient), out-of-bounds array reads (which yield `undefined` in
JavaScript) become `Option` values, and thrown exceptions become
`Except` results.
-/

/-! ## Rule engine -/

/-- The 3-bit neighborhood pattern `(left ? 4 : 0) + (center ? 2 : 0) + (right ? 1 : 0)`
computed inside `step` (useStore.ts line 163, useSimulationStore.ts line 70). -/
def pattern3 (left center right : Bool) : Nat :=
  (if left then 4 else 0) + (if center then 2 else 0) + (if right then 1 else 0)

/-- Raw embedding of `step`'s per-cell loop (useStore.ts lines 155-165,
useSimulationStore.ts lines 62-72, and the identical loop in the
factory-based store).  For each index `i` of `cells`, the neighbors are
read at the toroidal indices `(i-1+N)%N`, `i`, `(i+1)%N` (rendered here
as `(i+N-1)%N` which agrees for natural `i`), and the entry written is
the JavaScript read `ruleToggles[7 - idx]`, which is `undefined` (here
`none`) when the table is shorter than `8 - idx`. -/
def stepRaw (cells ruleToggles : List Bool) : List (Option Bool) :=
  (List.range cells.length).map fun i =>
    let n := cells.length
    let left := cells.getD ((i + n - 1) % n) false
    let center := cells.getD i false
    let right := cells.getD ((i + 1) % n) false
    ruleToggles[7 - pattern3 left center right]?

/-- The `step` transition as its results are consumed: a JavaScript
`undefined` entry is falsy, so it behaves as a dead cell in every later
truthiness test; `step` coerces it to `false`. -/
def step (cells ruleToggles : List Bool) : List Bool :=
  (stepRaw cells ruleToggles).map (fun v => v.getD false)

/-- C1: `step` preserves the length `N` of the generation; each entry `i`
equals `ruleToggles[7 - pattern]` for the pattern `4*left + 2*center + right`
built from the toroidally addressed neighbors; for `N = 0` the result is
empty, and for `N = 1` left, center and right all coincide with the single
cell. -/
theorem step_matches_rule_table (g t : List Bool) (h8 : t.length = 8) :
    (step g t).length = g.length ∧
    (∀ i, i < g.length →
      (step g t).getD i false =
        t.getD (7 - pattern3 (g.getD ((i + g.length - 1) % g.length) false)
          (g.getD i false) (g.getD ((i + 1) % g.length) false)) false) ∧
    (g = [] → step g t = []) ∧
    (∀ x, g = [x] → step g t = [t.getD (7 - pattern3 x x x) false]) := by
  refine ⟨?_, ?_, ?_, ?_⟩
  · simp [step, stepRaw]
  · intro i hi
    have hlt : 7 - pattern3 (g.getD ((i + g.length - 1) % g.length) false)
        (g.getD i false) (g.getD ((i + 1) % g.length) false) < t.length := by
      rw [h8]; omega
    simp only [step, stepRaw, List.getD_eq_getElem?_getD]
    rw [List.getElem?_map, List.getElem?_map, List.getElem?_range hi]
    simp [List.getElem?_eq_getElem hlt]
  · intro h; subst h; simp [step, stepRaw]
  · intro x h; subst h
    have hlt : 7 - pattern3 x x x < t.length := by rw [h8]; omega
    simp [step, stepRaw, List.range_succ, List.getElem?_eq_getElem hlt,
      List.getD_eq_getElem?_getD]

/-- Witness for C1 at a concrete input: rule 30's table applied to a
three-cell generation with a single live center cell. -/
theorem step_matches_rule_table_witness :
    ([false, false, false, true, true, true, true, false] : List Bool).length = 8 ∧
    ((step [false, true, false] [false, false, false, true, true, true, true, false]).length = 3 ∧
    (∀ i, i < ([false, true, false] : List Bool).length →
      (step [false, true, false] [false, false, false, true, true, true, true, false]).getD i false =
        [false, false, false, true, true, true, true, false].getD
          (7 - pattern3 ([false, true, false].getD ((i + 3 - 1) % 3) false)
            ([false, true, false].getD i false)
            ([false, true, false].getD ((i + 1) % 3) false)) false) ∧
    (([false, true, false] : List Bool) = [] →
      step [false, true, false] [false, false, false, true, true, true, true, false] = []) ∧
    (∀ x, ([false, true, false] : List Bool) = [x] →
      step [false, true, false] [false, false, false, true, true, true, true, false] =
        [[false, false, false, true, true, true, true, false].getD (7 - pattern3 x x x) false])) :=
  ⟨by decide,
    step_matches_rule_table [false, true, false]
      [false, false, false, true, true, true, true, false] (by decide)⟩

/-! ## Rule tables from rule numbers -/

/-- Embedding of `setPresetRule`'s toggle construction (useStore.ts lines
213-219: `toggles[7 - i] = ((ruleNumber >> i) & 1) === 1`, and the
equivalent `Boolean(ruleNumber & (1 << i))` in useSimulationStore.ts
lines 128-134 and the factory-based store): an 8-entry all-false array
mutated by the loop over `i = 0..7`. -/
def setPresetRuleToggles (ruleNumber : Nat) : List Bool :=
  (List.range 8).foldl (fun acc i => acc.set (7 - i) (Nat.testBit ruleNumber i))
    (List.replicate 8 false)

/-- Embedding of the factory-based store's initial `ruleToggles` field
(the store creating `activeRenderer`, lines 80-87): an 8-entry all-false
array mutated by `toggles[i] = Boolean(DEFAULT_RULE & (1 << i))` for
`i = 0..7` — note the missing `7 - i` inversion.  It is written against
the store's `DEFAULT_RULE` but parametrized here by the rule number the
loop reads. -/
def initialRuleToggles (ruleNumber : Nat) : List Bool :=
  (List.range 8).foldl (fun acc i => acc.set i (Nat.testBit ruleNumber i))
    (List.replicate 8 false)

/-- C2 counterexample: the factory-based store's initial rule-toggle
construction does not satisfy `table[7 - i] = bit i`.  At the store's own
`DEFAULT_RULE = 110` and `i = 3`, the claim requires `table[4] = bit 3 =
true`, but the initializer stores `bit 4 = false` there. -/
theorem initialRuleToggles_not_inverted :
    (110 : Nat) < 256 ∧ Nat.testBit 110 3 = true ∧
    ¬ (initialRuleToggles 110).getD (7 - 3) false = Nat.testBit 110 3 := by
  decide

set_option maxRecDepth 4096 in
/-- C2 amended: for every rule number `r < 256`, `setPresetRule` (in all
store variants) yields exactly 8 entries with `table[7 - i]` equal to bit
`i` of `r`; the factory-based store's initial construction also yields 8
entries but with `table[i]` equal to bit `i` — the reversed layout. -/
theorem presetRule_table_bits (r : Nat) (hr : r < 256) :
    (setPresetRuleToggles r).length = 8 ∧
    (∀ i, i < 8 → (setPresetRuleToggles r).getD (7 - i) false = Nat.testBit r i) ∧
    (initialRuleToggles r).length = 8 ∧
    (∀ i, i < 8 → (initialRuleToggles r).getD i false = Nat.testBit r i) := by
  revert hr
  revert r
  decide

/-- Witness for C2 at the concrete rule number 30. -/
theorem presetRule_table_bits_witness :
    (30 : Nat) < 256 ∧
    ((setPresetRuleToggles 30).length = 8 ∧
    (∀ i, i < 8 → (setPresetRuleToggles 30).getD (7 - i) false = Nat.testBit 30 i) ∧
    (initialRuleToggles 30).length = 8 ∧
    (∀ i, i < 8 → (initialRuleToggles 30).getD i false = Nat.testBit 30 i)) :=
  ⟨by decide, presetRule_table_bits 30 (by decide)⟩

/-! ## Silent tolerance of contract violations in `step` (C8) -/

/-- C8: with a 7-entry rule table (contract requires 8), `step` does not
fail: the loop completes, the all-dead neighborhood reads
`ruleToggles[7]` past the end of the table and silently stores the
JavaScript `undefined` (modelled `none`), which every later truthiness
test treats as a dead cell.  The same loop re-reads `cells.length` on
every invocation, so a generation whose length changed between steps is
likewise processed without any assertion. -/
theorem step_silently_tolerates_short_table :
    stepRaw [false] (List.replicate 7 false) = [none] ∧
    stepRaw [false, false] (List.replicate 7 false) = [none, none] ∧
    (step [false] (List.replicate 7 false)).length = 1 := by
  decide

/-! ## Store state machines and the history window (C3) -/

/-- Simulation state shared by the store variants: the current
generation, the history of previous generations (oldest first) and the
generation counter. -/
structure SimState where
  cells : List Bool
  previousGenerations : List (List Bool)
  generation : Nat
deriving DecidableEq, Repr

/-- Embedding of `step` in useStore.ts lines 155-180 (and the
factory-based store): compute the next generation, evict the oldest
history entry when `length >= maxVisibleGenerations`, then push the
pre-step generation. -/
def storeStep (M : Nat) (t : List Bool) (s : SimState) : SimState :=
  let next := step s.cells t
  let p := if M ≤ s.previousGenerations.length
    then s.previousGenerations.drop 1 else s.previousGenerations
  ⟨next, p ++ [s.cells], s.generation + 1⟩

/-- Embedding of `incrementGeneration` in useStore.ts lines 92-105 (the
append operation of the spec's HistoryBuffer): push the current
generation, then evict index 0 if the length now exceeds
`maxVisibleGenerations`. -/
def storeAppend (M : Nat) (s : SimState) : SimState :=
  let p := s.previousGenerations ++ [s.cells]
  ⟨s.cells, if M < p.length then p.drop 1 else p, s.generation + 1⟩

/-- Embedding of `step` in useSimulationStore.ts lines 62-79: identical
rule application, but the history push performs no eviction at all. -/
def simStep (t : List Bool) (s : SimState) : SimState :=
  ⟨step s.cells t, s.previousGenerations ++ [s.cells], s.generation + 1⟩

/-- Embedding of `incrementGeneration` in useSimulationStore.ts lines
81-89: push with no eviction. -/
def simAppend (s : SimState) : SimState :=
  ⟨s.cells, s.previousGenerations ++ [s.cells], s.generation + 1⟩

/-- The two history-pushing operations of the claim: a simulation step
or a bare append (`incrementGeneration`). -/
inductive StoreOp where
  | step : StoreOp
  | append : StoreOp
deriving DecidableEq, Repr

/-- Dispatch a `StoreOp` on the useStore variant. -/
def storeApply (M : Nat) (t : List Bool) : StoreOp → SimState → SimState
  | .step => storeStep M t
  | .append => storeAppend M

/-- Run a sequence of operations on the useStore variant. -/
def storeRun (M : Nat) (t : List Bool) (ops : List StoreOp) (s : SimState) : SimState :=
  ops.foldl (fun s op => storeApply M t op s) s

/-- Dispatch a `StoreOp` on the useSimulationStore variant. -/
def simApply (t : List Bool) : StoreOp → SimState → SimState
  | .step => simStep t
  | .append => simAppend

/-- Run a sequence of operations on the useSimulationStore variant. -/
def simRun (t : List Bool) (ops : List StoreOp) (s : SimState) : SimState :=
  ops.foldl (fun s op => simApply t op s) s

/-- The generations pushed into the history by a run, in push order:
every operation pushes the generation that is current when it fires. -/
def pushedCells (M : Nat) (t : List Bool) : List StoreOp → SimState → List (List Bool)
  | [], _ => []
  | op :: rest, s => s.cells :: pushedCells M t rest (storeApply M t op s)

/-- The suffix of the `m` most recent entries of a list (all of it when
it is shorter than `m`). -/
def lastN (m : Nat) (l : List α) : List α := l.drop (l.length - m)

theorem length_lastN (m : Nat) (l : List α) :
    (lastN m l).length = l.length - (l.length - m) := by
  simp [lastN]

/-- One useStore `step` keeps the history equal to the `M` most recent
pushed generations. -/
theorem storeStep_prev (M : Nat) (t : List Bool) (s : SimState) (P : List (List Bool))
    (hM : 1 ≤ M) (h : s.previousGenerations = lastN M P) :
    (storeStep M t s).previousGenerations = lastN M (P ++ [s.cells]) := by
  have hlen : s.previousGenerations.length = P.length - (P.length - M) := by
    rw [h, length_lastN]
  have hrhs : lastN M (P ++ [s.cells]) = P.drop (P.length + 1 - M) ++ [s.cells] := by
    unfold lastN
    rw [List.length_append, List.length_cons, List.length_nil,
      List.drop_append_of_le_length (by omega)]
  simp only [storeStep]
  by_cases hc : M ≤ s.previousGenerations.length
  · have hPM : M ≤ P.length := by omega
    rw [if_pos hc, h, hrhs]
    unfold lastN
    rw [List.drop_drop]
    congr 2
    omega
  · have hPM : P.length < M := by omega
    have hP : s.previousGenerations = P := by
      rw [h]; unfold lastN
      rw [Nat.sub_eq_zero_of_le (Nat.le_of_lt hPM), List.drop_zero]
    rw [if_neg hc, hP, hrhs, Nat.sub_eq_zero_of_le (by omega), List.drop_zero]

/-- One useStore `incrementGeneration` keeps the history equal to the
`M` most recent pushed generations. -/
theorem storeAppend_prev (M : Nat) (s : SimState) (P : List (List Bool))
    (hM : 1 ≤ M) (h : s.previousGenerations = lastN M P) :
    (storeAppend M s).previousGenerations = lastN M (P ++ [s.cells]) := by
  have hlen : s.previousGenerations.length = P.length - (P.length - M) := by
    rw [h, length_lastN]
  have hrhs : lastN M (P ++ [s.cells]) = P.drop (P.length + 1 - M) ++ [s.cells] := by
    unfold lastN
    rw [List.length_append, List.length_cons, List.length_nil,
      List.drop_append_of_le_length (by omega)]
  simp only [storeAppend]
  by_cases hc : M < (s.previousGenerations ++ [s.cells]).length
  · have hc2 : M < s.previousGenerations.length + 1 := by
      rw [List.length_append, List.length_cons, List.length_nil] at hc; omega
    have hPM : M ≤ P.length := by omega
    rw [if_pos hc, h, hrhs]
    unfold lastN
    rw [List.drop_append_of_le_length (by rw [List.length_drop]; omega), List.drop_drop]
    congr 2
    omega
  · have hc2 : s.previousGenerations.length + 1 ≤ M := by
      rw [List.length_append, List.length_cons, List.length_nil] at hc; omega
    have hPM : P.length < M := by omega
    have hP : s.previousGenerations = P := by
      rw [h]; unfold lastN
      rw [Nat.sub_eq_zero_of_le (Nat.le_of_lt hPM), List.drop_zero]
    rw [if_neg hc, hP, hrhs, Nat.sub_eq_zero_of_le (by omega), List.drop_zero]

/-- Any useStore run keeps the history equal to the `M` most recent
pushed generations, in push order. -/
theorem storeRun_prev (M : Nat) (t : List Bool) (ops : List StoreOp) :
    ∀ (s : SimState) (P : List (List Bool)), 1 ≤ M →
    s.previousGenerations = lastN M P →
    (storeRun M t ops s).previousGenerations = lastN M (P ++ pushedCells M t ops s) := by
  induction ops with
  | nil => intro s P hM h; simpa [storeRun, pushedCells] using h
  | cons op rest ih =>
    intro s P hM h
    have hstep : (storeApply M t op s).previousGenerations = lastN M (P ++ [s.cells]) := by
      cases op
      · exact storeStep_prev M t s P hM h
      · exact storeAppend_prev M s P hM h
    have := ih (storeApply M t op s) (P ++ [s.cells]) hM hstep
    simpa [storeRun, pushedCells, List.foldl_cons, List.append_assoc] using this

/-- In the useSimulationStore variant every operation grows the history
by one: no eviction ever happens. -/
theorem simRun_prev_length (t : List Bool) (ops : List StoreOp) :
    ∀ s : SimState,
    (simRun t ops s).previousGenerations.length =
      s.previousGenerations.length + ops.length := by
  induction ops with
  | nil => intro s; simp [simRun]
  | cons op rest ih =>
    intro s
    have := ih (simApply t op s)
    have happ : (simApply t op s).previousGenerations.length =
        s.previousGenerations.length + 1 := by
      cases op <;> simp [simApply, simStep, simAppend]
    simp only [simRun, List.foldl_cons] at this ⊢
    rw [this, happ, List.length_cons]
    omega

/-- C3 counterexample: two distinct violations of the claim.  In
useSimulationStore, `step` never evicts, so with bound `M = 1` two
steps from an empty history already leave two entries.  And in useStore
itself, with `M = 0` (reachable, since `maxVisibleGenerations =
floor(innerHeight / (cellSize + cellMargin))` is 0 whenever the window
is shorter than one cell row), `step`'s evict-before-push shifts the
empty history and then still pushes, leaving length `1 > 0 = M` after a
single step. -/
theorem simStore_history_unbounded :
    ((simRun [] [StoreOp.step, StoreOp.step] ⟨[], [], 0⟩).previousGenerations.length = 2 ∧
      ¬ (simRun [] [StoreOp.step, StoreOp.step]
          ⟨[], [], 0⟩).previousGenerations.length ≤ 1) ∧
    ((storeRun 0 [] [StoreOp.step] ⟨[], [], 0⟩).previousGenerations.length = 1 ∧
      ¬ (storeRun 0 [] [StoreOp.step] ⟨[], [], 0⟩).previousGenerations.length ≤ 0) := by
  decide

/-- C3 amended: in the useStore variant, for any bound `M ≥ 1` and any
sequence of step/append operations from an empty history, the history is
always exactly the `M` most recent pushed generations in push order (so
its length never exceeds `M`, and once at least `M` pushes happened it
is exactly the most recent `M`); at the degenerate bound `M = 0`,
useStore's `step` itself overshoots: one step from an empty history
leaves exactly one entry, so the bound is exceeded (see the
counterexample); and the useSimulationStore variant grows its history by
one per operation, without bound. -/
theorem history_window_bound (M : Nat) (t : List Bool) (ops ops2 : List StoreOp)
    (s0 s1 : SimState) (hM : 1 ≤ M) (h0 : s0.previousGenerations = []) :
    (storeRun M t ops s0).previousGenerations = lastN M (pushedCells M t ops s0) ∧
    (storeRun M t ops s0).previousGenerations.length ≤ M ∧
    (simRun t ops2 s1).previousGenerations.length =
      s1.previousGenerations.length + ops2.length ∧
    (storeStep 0 t s0).previousGenerations = [s0.cells] := by
  have h1 : (storeRun M t ops s0).previousGenerations =
      lastN M (pushedCells M t ops s0) := by
    have := storeRun_prev M t ops s0 [] hM (by rw [h0]; simp [lastN])
    simpa using this
  refine ⟨h1, ?_, simRun_prev_length t ops2 s1, ?_⟩
  · rw [h1, length_lastN]
    omega
  · simp [storeStep, h0]

/-- Witness for C3 at a concrete run: bound 2, three operations. -/
theorem history_window_bound_witness :
    ((1 : Nat) ≤ 2 ∧ (⟨[true], [], 0⟩ : SimState).previousGenerations = []) ∧
    ((storeRun 2 [] [StoreOp.step, StoreOp.append, StoreOp.step]
        ⟨[true], [], 0⟩).previousGenerations =
      lastN 2 (pushedCells 2 [] [StoreOp.step, StoreOp.append, StoreOp.step]
        ⟨[true], [], 0⟩) ∧
    (storeRun 2 [] [StoreOp.step, StoreOp.append, StoreOp.step]
        ⟨[true], [], 0⟩).previousGenerations.length ≤ 2 ∧
    (simRun [] [StoreOp.append] ⟨[], [], 0⟩).previousGenerations.length =
      (⟨[], [], 0⟩ : SimState).previousGenerations.length + [StoreOp.append].length ∧
    (storeStep 0 [] ⟨[true], [], 0⟩).previousGenerations = [[true]]) :=
  ⟨⟨by decide, rfl⟩,
    history_window_bound 2 [] [StoreOp.step, StoreOp.append, StoreOp.step]
      [StoreOp.append] ⟨[true], [], 0⟩ ⟨[], [], 0⟩ (by decide) rfl⟩

/-! ## Viewport metric derivation (C7) -/

/-- The record returned by `calculateCanvasMetrics` in all store
variants. -/
structure CanvasMetrics where
  availableWidth : Int
  maxCells : Int
  renderWidth : Int
  renderMargin : Int
  maxVisibleGenerations : Int
deriving DecidableEq, Repr

/-- Embedding of `calculateCanvasMetrics` in useStore.ts lines 44-60 and
the factory-based store (identical): `SIDEBAR_WIDTH = 300`,
`maxCells = floor(availableWidth / (cellSize + cellMargin))`,
`maxVisibleGenerations = floor(window.innerHeight / (cellSize + cellMargin))`.
`window.innerHeight` is the ambient browser height, passed explicitly;
`Math.floor` of a quotient is `Int.fdiv`. -/
def calculateCanvasMetrics (windowWidth innerHeight cellSize cellMargin : Int) :
    CanvasMetrics :=
  let availableWidth := windowWidth - 300
  let maxCells := Int.fdiv availableWidth (cellSize + cellMargin)
  let renderWidth := maxCells * (cellSize + cellMargin)
  let renderMargin := Int.fdiv (availableWidth - renderWidth) 2
  let maxVisibleGenerations := Int.fdiv innerHeight (cellSize + cellMargin)
  ⟨availableWidth, maxCells, renderWidth, renderMargin, maxVisibleGenerations⟩

/-- Embedding of `calculateCanvasMetrics` in useRenderStore.ts lines
24-39: identical width metrics, but
`maxVisibleGenerations = floor((window.innerHeight - 100) / cellSize)` —
the divisor is `cellSize` alone, not `cellSize + cellMargin`. -/
def calculateCanvasMetricsRender (windowWidth innerHeight cellSize cellMargin : Int) :
    CanvasMetrics :=
  let availableWidth := windowWidth - 300
  let maxCells := Int.fdiv availableWidth (cellSize + cellMargin)
  let renderWidth := maxCells * (cellSize + cellMargin)
  let renderMargin := Int.fdiv (availableWidth - renderWidth) 2
  let maxVisibleGenerations := Int.fdiv (innerHeight - 100) cellSize
  ⟨availableWidth, maxCells, renderWidth, renderMargin, maxVisibleGenerations⟩

/-- The spec's formula `N = floor(availableWidth / (cellSize + cellMargin))`,
written from the spec's words for comparison with the code. -/
def specMaxCells (availableWidth cellSize cellMargin : Int) : Int :=
  Int.fdiv availableWidth (cellSize + cellMargin)

/-- The spec's formula `M = floor(availableHeight / (cellSize + cellMargin))`,
written from the spec's words for comparison with the code. -/
def specMaxVisibleGenerations (availableHeight cellSize cellMargin : Int) : Int :=
  Int.fdiv availableHeight (cellSize + cellMargin)

/-- C7 counterexample: in the useRenderStore variant, with window width
310, inner height 104, cell size 2 and cell margin 2, the code computes
`M = floor(4 / 2) = 2`, while the spec's formula gives
`floor(4 / 4) = 1` (or `floor(104 / 4) = 26` if the full inner height is
read as the available height) — so the claimed formula fails in that
store variant. -/
theorem render_store_M_ignores_margin :
    (calculateCanvasMetricsRender 310 104 2 2).maxVisibleGenerations = 2 ∧
    specMaxVisibleGenerations (104 - 100) 2 2 = 1 ∧
    specMaxVisibleGenerations 104 2 2 = 26 ∧
    ¬ (calculateCanvasMetricsRender 310 104 2 2).maxVisibleGenerations =
        specMaxVisibleGenerations (104 - 100) 2 2 := by
  decide

/-- C7 amended: in every store variant
`N = floor((windowWidth - 300) / (cellSize + cellMargin))`, and in
useStore and the factory-based store
`M = floor(innerHeight / (cellSize + cellMargin))` as the spec states;
the useRenderStore variant instead computes
`M = floor((innerHeight - 100) / cellSize)`, ignoring the cell margin. -/
theorem canvas_metrics_formulas (ww ih cs cm : Int) :
    (calculateCanvasMetrics ww ih cs cm).maxCells = specMaxCells (ww - 300) cs cm ∧
    (calculateCanvasMetricsRender ww ih cs cm).maxCells = specMaxCells (ww - 300) cs cm ∧
    (calculateCanvasMetrics ww ih cs cm).maxVisibleGenerations =
      specMaxVisibleGenerations ih cs cm ∧
    (calculateCanvasMetricsRender ww ih cs cm).maxVisibleGenerations =
      Int.fdiv (ih - 100) cs :=
  ⟨rfl, rfl, rfl, rfl⟩

/-! ## Viewport-driven resets and the history window (C9) -/

/-- Full state of the useStore variant (the factory-based store is
identical for the fields and actions modelled here). -/
structure StoreState where
  cells : List Bool
  previousGenerations : List (List Bool)
  generation : Nat
  cellSize : Int
  cellMargin : Int
  availableWidth : Int
  maxCells : Int
  renderWidth : Int
  renderMargin : Int
  maxVisibleGenerations : Int
deriving DecidableEq, Repr

/-- The centered cell copy shared by `updateCanvasSize`, `setCellSize`
and `setCellMargin` (useStore.ts lines 113-151 and 221-238): a fresh
all-false array of the new `maxCells` length receives `cells[i]` at
`i + offset` with `offset = floor((maxCells - cells.length) / 2)`,
whenever that target index is in range. -/
def recenterCells (cells : List Bool) (newMax : Int) : List Bool :=
  let offset := Int.fdiv (newMax - (cells.length : Int)) 2
  (List.range newMax.toNat).map fun j =>
    let i : Int := (j : Int) - offset
    if 0 ≤ i ∧ i < (cells.length : Int) then cells.getD i.toNat false else false

/-- Embedding of `updateCanvasSize` (useStore.ts lines 221-238, and the
factory-based store lines 246-263): recompute metrics, recenter the
cells — and merge, leaving `previousGenerations` and `generation`
untouched. -/
def updateCanvasSize (windowWidth innerHeight : Int) (s : StoreState) : StoreState :=
  let m := calculateCanvasMetrics windowWidth innerHeight s.cellSize s.cellMargin
  ⟨recenterCells s.cells m.maxCells, s.previousGenerations, s.generation,
    s.cellSize, s.cellMargin, m.availableWidth, m.maxCells, m.renderWidth,
    m.renderMargin, m.maxVisibleGenerations⟩

/-- Embedding of `setCellSize` (useStore.ts lines 113-131). -/
def setCellSize (windowWidth innerHeight size : Int) (s : StoreState) : StoreState :=
  let m := calculateCanvasMetrics windowWidth innerHeight size s.cellMargin
  ⟨recenterCells s.cells m.maxCells, s.previousGenerations, s.generation,
    size, s.cellMargin, m.availableWidth, m.maxCells, m.renderWidth,
    m.renderMargin, m.maxVisibleGenerations⟩

/-- Embedding of `setCellMargin` (useStore.ts lines 133-151). -/
def setCellMargin (windowWidth innerHeight margin : Int) (s : StoreState) : StoreState :=
  let m := calculateCanvasMetrics windowWidth innerHeight s.cellSize margin
  ⟨recenterCells s.cells m.maxCells, s.previousGenerations, s.generation,
    s.cellSize, margin, m.availableWidth, m.maxCells, m.renderWidth,
    m.renderMargin, m.maxVisibleGenerations⟩

/-- C9 counterexample: `updateCanvasSize` replaces the cells array but
leaves a non-empty `previousGenerations` exactly as it was — the history
window is not cleared. -/
theorem updateCanvasSize_keeps_history :
    (updateCanvasSize 310 100
        ⟨[true], [[true]], 1, 2, 0, 10, 5, 10, 0, 50⟩).previousGenerations = [[true]] ∧
    ¬ (updateCanvasSize 310 100
        ⟨[true], [[true]], 1, 2, 0, 10, 5, 10, 0, 50⟩).previousGenerations = [] := by
  decide

/-- C9 amended: the Viewport-driven resets (`updateCanvasSize`,
`setCellSize`, `setCellMargin`) replace the cells array but leave
`previousGenerations` (and the generation counter) unchanged; none of
them clears the history window — only `initializePattern` and
`resetGeneration` do. -/
theorem viewport_resets_preserve_history (ww ih v : Int) (s : StoreState) :
    (updateCanvasSize ww ih s).previousGenerations = s.previousGenerations ∧
    (setCellSize ww ih v s).previousGenerations = s.previousGenerations ∧
    (setCellMargin ww ih v s).previousGenerations = s.previousGenerations ∧
    (updateCanvasSize ww ih s).generation = s.generation :=
  ⟨rfl, rfl, rfl, rfl⟩

/-! ## Renderer factory and backend fallback (C6) -/

/-- The `RendererType` union of RendererFactory.ts. -/
inductive RendererType where
  | webgl : RendererType
  | canvas2d : RendererType
deriving DecidableEq, Repr

/-- Which backend a factory call constructed. -/
inductive Backend where
  | gpu : Backend
  | cpu : Backend
deriving DecidableEq, Repr

/-- The environment outcomes a factory call can observe: the cached
WebGL2 capability probe, whether GPU backend construction together with
`initialize` succeeds, and whether the Canvas2D backend's `initialize`
finds a 2D context. -/
structure FactoryEnv where
  webgl2Supported : Bool
  gpuOk : Bool
  canvas2dOk : Bool
deriving DecidableEq, Repr

/-- The factory's preference test
`preferredType === 'webgl' || !preferredType`. -/
def gpuPreferred : Option RendererType → Bool
  | some .webgl => true
  | none => true
  | some .canvas2d => false

/-- Embedding of the `createRenderer` variant that takes only a
preferred type (RendererFactory with `WebGLRenderer`, lines 208-222 of
the combined renderer sources): the GPU constructor runs inside a
try/catch whose handler returns a fresh Canvas2D backend; no
`initialize` is called, so nothing can escape the boundary. -/
def createRenderer1 (pref : Option RendererType) (env : FactoryEnv) :
    Except String Backend :=
  if gpuPreferred pref && env.webgl2Supported then
    if env.gpuOk then .ok .gpu else .ok .cpu
  else .ok .cpu

/-- Embedding of the `createRenderer` variant that also takes an
optional canvas (RendererFactory with `WebGLComputeRenderer`, lines
271-294): when a canvas is supplied the chosen backend is eagerly
initialized; a GPU failure is caught and falls through to the Canvas2D
path, but the Canvas2D `initialize` there runs outside any
try/catch, so its `Failed to get 2D context` error escapes. -/
def createRenderer2 (pref : Option RendererType) (canvas : Bool) (env : FactoryEnv) :
    Except String Backend :=
  if gpuPreferred pref && env.webgl2Supported then
    if canvas then
      if env.gpuOk then .ok .gpu
      else if env.canvas2dOk then .ok .cpu
      else .error "Failed to get 2D context"
    else .ok .gpu
  else if canvas then
    if env.canvas2dOk then .ok .cpu
    else .error "Failed to get 2D context"
  else .ok .cpu

/-- True when a factory call returned a renderer rather than escaping
with an error. -/
def rendererOk : Except String Backend → Bool
  | .ok _ => true
  | .error _ => false

instance : DecidableEq (Except String Backend)
  | .ok a, .ok b =>
    if h : a = b then isTrue (congrArg Except.ok h)
    else isFalse (fun hh => h (Except.ok.inj hh))
  | .error a, .error b =>
    if h : a = b then isTrue (congrArg Except.error h)
    else isFalse (fun hh => h (Except.error.inj hh))
  | .ok _, .error _ => isFalse (fun hh => Except.noConfusion hh)
  | .error _, .ok _ => isFalse (fun hh => Except.noConfusion hh)

/-- C6 counterexample: in the canvas-taking factory variant, with WebGL2
unsupported and no 2D context available, the Canvas2D `initialize`
failure propagates out of `createRenderer` — the call does not return a
renderer. -/
theorem createRenderer_propagates_canvas2d_failure :
    createRenderer2 none true ⟨false, true, false⟩ =
      .error "Failed to get 2D context" ∧
    rendererOk (createRenderer2 none true ⟨false, true, false⟩) = false := by
  constructor
  · rfl
  · rfl

/-- C6 amended: both factory variants construct the GPU backend only
when WebGL2 is supported and the GPU backend is preferred or
unspecified; any GPU construction/initialization failure is caught and
the Canvas2D backend constructed instead; the variant without eager
initialization never propagates any exception, while the canvas-taking
variant propagates exactly the Canvas2D initialization failure (when a
canvas is supplied and no 2D context is available). -/
theorem createRenderer_fallback (pref : Option RendererType) (canvas : Bool)
    (env : FactoryEnv) :
    rendererOk (createRenderer1 pref env) = true ∧
    (createRenderer1 pref env = .ok .gpu →
      gpuPreferred pref = true ∧ env.webgl2Supported = true) ∧
    (createRenderer2 pref canvas env = .ok .gpu →
      gpuPreferred pref = true ∧ env.webgl2Supported = true) ∧
    (gpuPreferred pref = true → env.webgl2Supported = true → env.gpuOk = false →
      env.canvas2dOk = true → createRenderer2 pref true env = .ok .cpu) ∧
    ((env.canvas2dOk = true ∨ canvas = false) →
      rendererOk (createRenderer2 pref canvas env) = true) := by
  obtain ⟨a, b, c⟩ := env
  rcases pref with _ | rt
  · cases a <;> cases b <;> cases c <;> cases canvas <;> decide
  · cases rt <;> cases a <;> cases b <;> cases c <;> cases canvas <;> decide

/-- Witness for C6 at a concrete configuration: GPU preferred by
default, WebGL2 supported but GPU initialization failing, 2D context
available. -/
theorem createRenderer_fallback_witness :
    rendererOk (createRenderer1 none ⟨true, false, true⟩) = true ∧
    (createRenderer1 none ⟨true, false, true⟩ = .ok .gpu →
      gpuPreferred none = true ∧ (true : Bool) = true) ∧
    (createRenderer2 none true ⟨true, false, true⟩ = .ok .gpu →
      gpuPreferred none = true ∧ (true : Bool) = true) ∧
    (gpuPreferred none = true → (true : Bool) = true → (false : Bool) = false →
      (true : Bool) = true → createRenderer2 none true ⟨true, false, true⟩ = .ok .cpu) ∧
    (((true : Bool) = true ∨ (true : Bool) = false) →
      rendererOk (createRenderer2 none true ⟨true, false, true⟩) = true) :=
  createRenderer_fallback none true ⟨true, false, true⟩

/-! ## GPU compute renderer: ping-pong buffering (C4) -/

/-- The per-frame snapshot `render` receives (`CellState` with the
viewport fields the renderers read). -/
structure RenderInput where
  cells : List Bool
  previousGenerations : List (List Bool)
  generation : Nat
  rule : Nat
  maxVisibleGenerations : Nat
deriving DecidableEq, Repr

/-- The smallest power of two at least `n` (for `n ≥ 1`):
`Math.pow(2, Math.ceil(Math.log2(n)))` of `updateTexture` in
`WebGLComputeRenderer`. -/
def pow2ceil (n : Nat) : Nat := 2 ^ Nat.clog 2 n

/-- The instance fields of `WebGLComputeRenderer` that its methods read
and write: `gl`/program handles reduced to their null-or-not state, the
ping-pong index `currentTexture`, the texture dimensions and the cached
generation and rule.  Field initializers give `currentTexture = 0`,
`textureWidth = textureHeight = 1`, `generation = rule = 0`. -/
structure GLCState where
  gl : Bool
  displayProgram : Bool
  computeProgram : Bool
  currentTexture : Nat
  textureWidth : Nat
  textureHeight : Nat
  generation : Nat
  rule : Nat
deriving DecidableEq, Repr

/-- The freshly constructed renderer. -/
def glcInit : GLCState := ⟨false, false, false, 0, 1, 1, 0, 0⟩

/-- A successful `initialize` call: context obtained, both shader
programs compiled and linked, textures and framebuffers created (the
framebuffer at index `i` is attached to the texture at index `i`). -/
def glcSetup (s : GLCState) : GLCState :=
  ⟨true, true, true, s.currentTexture, s.textureWidth, s.textureHeight,
    s.generation, s.rule⟩

/-- Embedding of `WebGLComputeRenderer.updateTexture` (lines 248-322):
guarded on `gl`, it re-encodes the snapshot into power-of-two
dimensions, uploads into `textures[0]`, and sets `currentTexture = 0`
and the cached generation. -/
def glcUpdateTexture (s : GLCState) (st : RenderInput) : GLCState :=
  if s.gl then
    ⟨s.gl, s.displayProgram, s.computeProgram, 0,
      pow2ceil st.cells.length, pow2ceil st.maxVisibleGenerations,
      st.generation, s.rule⟩
  else s

/-- The read/write pair a compute pass uses: the texture bound as
`u_state` and the framebuffer index bound as the render target
(`WebGLComputeRenderer.computeNextState`, lines 324-364, and the
identical logic in `WebGLRenderer.computeNextState`, lines 313-340).
`none` when the guard `!this.gl || !this.computeProgram` makes the pass
a no-op. -/
def glcComputePass (s : GLCState) : Option (Nat × Nat) :=
  if s.gl && s.computeProgram then
    some (s.currentTexture, 1 - s.currentTexture)
  else none

/-- The state change performed by `computeNextState`: after drawing into
`framebuffers[1 - currentTexture]`, `currentTexture` becomes the written
index. -/
def glcComputeStep (s : GLCState) : GLCState :=
  if s.gl && s.computeProgram then
    ⟨s.gl, s.displayProgram, s.computeProgram, 1 - s.currentTexture,
      s.textureWidth, s.textureHeight, s.generation, s.rule⟩
  else s

/-- `initialize` attaches `framebuffers[i]` to `textures[i]` (lines
198-203), so the texture written through framebuffer `i` is texture `i`. -/
def fbAttachedTexture (i : Nat) : Nat := i

/-- Embedding of `WebGLComputeRenderer.render` (lines 366-424): guarded
on `gl` and `displayProgram`; if the generation changed it stores the
rule and re-uploads the texture; the display pass touches no fields; it
ends with a compute pass. -/
def glcRender (s : GLCState) (st : RenderInput) : GLCState :=
  if s.gl && s.displayProgram then
    glcComputeStep
      (if st.generation ≠ s.generation then
        glcUpdateTexture
          ⟨s.gl, s.displayProgram, s.computeProgram, s.currentTexture,
            s.textureWidth, s.textureHeight, s.generation, st.rule⟩ st
      else s)
  else s

/-- Embedding of `WebGLComputeRenderer.dispose` (lines 443-445): it
calls `cleanup`, which deletes the GL objects but assigns none of the
instance fields — in particular `gl` and the program handles stay set. -/
def glcDispose (s : GLCState) : GLCState := s

/-- The renderer's method calls, for closing the reachable-state
invariant. -/
inductive GLCOp where
  | setup : GLCOp
  | update : RenderInput → GLCOp
  | render : RenderInput → GLCOp
  | compute : GLCOp
  | dispose : GLCOp
deriving DecidableEq, Repr

/-- Dispatch a renderer method call. -/
def glcApply : GLCOp → GLCState → GLCState
  | .setup => glcSetup
  | .update st => fun s => glcUpdateTexture s st
  | .render st => fun s => glcRender s st
  | .compute => glcComputeStep
  | .dispose => glcDispose

/-- Run a sequence of renderer method calls. -/
def glcRun (ops : List GLCOp) (s : GLCState) : GLCState :=
  ops.foldl (fun s op => glcApply op s) s

theorem glcComputeStep_texture_le (s : GLCState) (h : s.currentTexture ≤ 1) :
    (glcComputeStep s).currentTexture ≤ 1 := by
  unfold glcComputeStep
  split
  · simp
  · exact h

theorem glcUpdateTexture_texture_le (s : GLCState) (st : RenderInput)
    (h : s.currentTexture ≤ 1) : (glcUpdateTexture s st).currentTexture ≤ 1 := by
  unfold glcUpdateTexture
  split <;> simp [h]

theorem glcApply_texture_le (op : GLCOp) (s : GLCState) (h : s.currentTexture ≤ 1) :
    (glcApply op s).currentTexture ≤ 1 := by
  cases op with
  | setup => simpa [glcApply, glcSetup] using h
  | update st => exact glcUpdateTexture_texture_le s st h
  | render st =>
    simp only [glcApply, glcRender]
    split
    · apply glcComputeStep_texture_le
      split
      · exact glcUpdateTexture_texture_le _ st h
      · exact h
    · exact h
  | compute => exact glcComputeStep_texture_le s h
  | dispose => simpa [glcApply, glcDispose] using h

/-- `currentTexture` stays in `{0, 1}` along every method-call run. -/
theorem glcRun_texture_le (ops : List GLCOp) :
    ∀ s : GLCState, s.currentTexture ≤ 1 → (glcRun ops s).currentTexture ≤ 1 := by
  induction ops with
  | nil => intro s h; simpa [glcRun] using h
  | cons op rest ih =>
    intro s h
    simpa [glcRun, List.foldl_cons] using ih (glcApply op s) (glcApply_texture_le op s h)

/-- C4: in every reachable renderer state `currentTexture` is 0 or 1;
every compute pass reads exactly `textures[currentTexture]` and writes
through `framebuffers[1 - currentTexture]`, whose attached texture is
`1 - currentTexture ≠ currentTexture` — the pass never reads and writes
the same texture — and after the pass `currentTexture` equals the
written texture, so write becomes read for the following frame. -/
theorem compute_pass_ping_pong (ops : List GLCOp) (s : GLCState) (r w : Nat)
    (h : s.currentTexture ≤ 1) (hp : glcComputePass s = some (r, w)) :
    (glcRun ops glcInit).currentTexture ≤ 1 ∧
    r = s.currentTexture ∧
    w = 1 - s.currentTexture ∧
    fbAttachedTexture w ≠ r ∧
    (glcComputeStep s).currentTexture = fbAttachedTexture w := by
  have hreach : (glcRun ops glcInit).currentTexture ≤ 1 :=
    glcRun_texture_le ops glcInit (by simp [glcInit])
  unfold glcComputePass at hp
  by_cases hg : s.gl && s.computeProgram
  · rw [if_pos hg] at hp
    have hr : r = s.currentTexture := by
      have := congrArg (fun o => (o.getD (0, 0)).1) hp
      simpa using this.symm
    have hw : w = 1 - s.currentTexture := by
      have := congrArg (fun o => (o.getD (0, 0)).2) hp
      simpa using this.symm
    refine ⟨hreach, hr, hw, ?_, ?_⟩
    · unfold fbAttachedTexture
      omega
    · unfold glcComputeStep
      rw [if_pos hg]
      simp [fbAttachedTexture, hw]
  · rw [if_neg hg] at hp
    exact absurd hp (by simp)

/-- Witness for C4: the freshly initialized renderer, whose compute pass
reads texture 0 and writes framebuffer 1. -/
theorem compute_pass_ping_pong_witness :
    ((glcSetup glcInit).currentTexture ≤ 1 ∧
      glcComputePass (glcSetup glcInit) = some (0, 1)) ∧
    ((glcRun [GLCOp.setup] glcInit).currentTexture ≤ 1 ∧
    0 = (glcSetup glcInit).currentTexture ∧
    1 = 1 - (glcSetup glcInit).currentTexture ∧
    fbAttachedTexture 1 ≠ 0 ∧
    (glcComputeStep (glcSetup glcInit)).currentTexture = fbAttachedTexture 1) :=
  ⟨⟨by decide, by decide⟩,
    compute_pass_ping_pong [GLCOp.setup] (glcSetup glcInit) 0 1 (by decide) (by decide)⟩

/-! ## Render guards before initialization and after dispose (C10) -/

/-- The instance fields of `Canvas2DRenderer` reduced to their
null-or-not state (the `options` field is set by `updateViewport`). -/
structure C2DState where
  canvas : Bool
  ctx : Bool
  options : Bool
deriving DecidableEq, Repr

/-- Embedding of `Canvas2DRenderer.render` (useRenderStore.ts companion
source lines 153-206): the guard `!this.ctx || !this.canvas ||
!this.options` returns early without touching any field; past the guard
the body only issues draw calls through the non-null `ctx` (the `none`
branch marks the null dereference that the guard makes unreachable).
The function never assigns an instance field, so the state is returned
unchanged. -/
def c2dRender (s : C2DState) : Option C2DState :=
  if !s.ctx || !s.canvas || !s.options then some s
  else if s.ctx then some s
  else none

/-- Embedding of `Canvas2DRenderer.dispose`: `canvas` and `ctx` are set
to null. -/
def c2dDispose (s : C2DState) : C2DState := ⟨false, false, s.options⟩

/-- The instance fields of `WebGLRenderer` (WebGLRenderer.ts lines
117-127) reduced as for the compute renderer. -/
structure WGLState where
  gl : Bool
  displayProgram : Bool
  computeProgram : Bool
  quadBuffer : Bool
  currentTexture : Nat
  textureWidth : Nat
  textureHeight : Nat
  generation : Nat
deriving DecidableEq, Repr

/-- Embedding of `WebGLRenderer.updateTexture` (lines 214-311): guarded
on `gl`; texture dimensions are the raw `cells.length` and
`maxVisibleGenerations + 1`; upload targets `textures[0]` and
`currentTexture` becomes 0. -/
def wglUpdateTexture (s : WGLState) (st : RenderInput) : WGLState :=
  if s.gl then
    ⟨s.gl, s.displayProgram, s.computeProgram, s.quadBuffer, 0,
      st.cells.length, st.maxVisibleGenerations + 1, st.generation⟩
  else s

/-- Embedding of `WebGLRenderer.computeNextState` (lines 313-340):
guarded on `gl` and `computeProgram`; flips `currentTexture`. -/
def wglComputeStep (s : WGLState) : WGLState :=
  if s.gl && s.computeProgram then
    ⟨s.gl, s.displayProgram, s.computeProgram, s.quadBuffer,
      1 - s.currentTexture, s.textureWidth, s.textureHeight, s.generation⟩
  else s

/-- Embedding of `WebGLRenderer.render` (lines 342-384): guarded on `gl`
and `displayProgram`; re-uploads when the generation changed, draws,
then runs the compute pass. -/
def wglRender (s : WGLState) (st : RenderInput) : WGLState :=
  if s.gl && s.displayProgram then
    wglComputeStep (if st.generation ≠ s.generation then wglUpdateTexture s st else s)
  else s

/-- Embedding of `WebGLRenderer.dispose` (lines 196-212): deletes all
resources and nulls every handle including `gl` itself. -/
def wglDispose (s : WGLState) : WGLState :=
  ⟨false, false, false, false, s.currentTexture, s.textureWidth,
    s.textureHeight, s.generation⟩

/-- C10 counterexample: `WebGLComputeRenderer.dispose` leaves `gl` and
the program handles set, so a `render` after `dispose` passes the guard
and mutates the renderer state (here `currentTexture`, the cached
generation and the rule all change). -/
theorem computeRenderer_render_after_dispose_mutates :
    glcDispose (glcSetup glcInit) = glcSetup glcInit ∧
    ¬ glcRender (glcDispose (glcSetup glcInit)) ⟨[true], [], 1, 30, 1⟩ =
        glcDispose (glcSetup glcInit) := by
  decide

/-- C10 amended: `Canvas2DRenderer.render` and `WebGLRenderer.render`
return normally and leave all renderer state unchanged both before
`initialize` has succeeded (null context) and after `dispose` (their
dispose nulls the context); `WebGLComputeRenderer.render` likewise
returns unchanged before initialization, but its `dispose` preserves
every instance field, so a later `render` passes the guard and mutates
renderer-internal state. -/
theorem render_guard_behavior (s1 s2 : C2DState) (s3 s4 : WGLState) (s5 : GLCState)
    (st : RenderInput) (h1 : s1.ctx = false) (h3 : s3.gl = false)
    (h5 : s5.gl = false) :
    c2dRender s1 = some s1 ∧
    c2dRender (c2dDispose s2) = some (c2dDispose s2) ∧
    wglRender s3 st = s3 ∧
    wglRender (wglDispose s4) st = wglDispose s4 ∧
    glcRender s5 st = s5 ∧
    glcDispose s5 = s5 := by
  refine ⟨?_, ?_, ?_, ?_, ?_, rfl⟩
  · simp [c2dRender, h1]
  · simp [c2dRender, c2dDispose]
  · simp [wglRender, h3]
  · simp [wglRender, wglDispose]
  · simp [glcRender, h5]

/-- Witness for C10 at concrete uninitialized and disposed states. -/
theorem render_guard_behavior_witness :
    ((⟨false, false, false⟩ : C2DState).ctx = false ∧
      (⟨false, false, false, false, 0, 0, 0, 0⟩ : WGLState).gl = false ∧
      glcInit.gl = false) ∧
    (c2dRender ⟨false, false, false⟩ = some ⟨false, false, false⟩ ∧
    c2dRender (c2dDispose ⟨true, true, true⟩) = some (c2dDispose ⟨true, true, true⟩) ∧
    wglRender ⟨false, false, false, false, 0, 0, 0, 0⟩ ⟨[true], [], 1, 30, 1⟩ =
      ⟨false, false, false, false, 0, 0, 0, 0⟩ ∧
    wglRender (wglDispose ⟨true, true, true, true, 0, 1, 1, 0⟩) ⟨[true], [], 1, 30, 1⟩ =
      wglDispose ⟨true, true, true, true, 0, 1, 1, 0⟩ ∧
    glcRender glcInit ⟨[true], [], 1, 30, 1⟩ = glcInit ∧
    glcDispose glcInit = glcInit) :=
  ⟨⟨rfl, rfl, rfl⟩,
    render_guard_behavior ⟨false, false, false⟩ ⟨true, true, true⟩
      ⟨false, false, false, false, 0, 0, 0, 0⟩ ⟨true, true, true, true, 0, 1, 1, 0⟩
      glcInit ⟨[true], [], 1, 30, 1⟩ rfl rfl rfl⟩

/-! ## CPU vs GPU live-cell rendering (C5) -/

/-- JavaScript `arr.slice(-m)`: the `m` most recent entries — except
that `slice(-0)` is `slice(0)`, the whole array. -/
def jsSliceLast (m : Nat) (l : List α) : List α :=
  if m = 0 then l else l.drop (l.length - m)

/-- The positions the Canvas2D renderer fills as live (companion source
of useRenderStore.ts, lines 153-206): rows `0 ≤ y < |visible|` show
`previousGenerations.slice(-maxVisibleGenerations)`, the row below them
shows the current generation, and a position is filled exactly when its
cell is true.  `x`/`y` are the cell index and generation row, the
pixel mapping `renderMargin + x*(cellSize+cellMargin)` being injective
in them. -/
def cpuLive (prev : List (List Bool)) (cells : List Bool) (M : Nat) (x y : Nat) : Bool :=
  let visible := jsSliceLast M prev
  if y < visible.length then (visible.getD y []).getD x false
  else if y = visible.length then cells.getD x false
  else false

/-- Whether the byte at flat index `idx` of the R8 texture upload is 255
(`WebGLComputeRenderer.updateTexture`, lines 248-322): the buffer starts
zeroed and `data[y * texWidth + x] = 255` is written for every true cell
at column `x` of visible row `y`, where the visible rows are
`[...previousGenerations, cells].slice(-maxVisibleGenerations)`. -/
def gpuDataBit (visible : List (List Bool)) (texW : Nat) (idx : Nat) : Bool :=
  (List.range visible.length).any fun y =>
    let row := visible.getD y []
    (List.range row.length).any fun x => (y * texW + x == idx) && row.getD x false

/-- Whether the display shader (part of `WebGLComputeRenderer`, lines
95-145) shows the cell at `(cellIndex, genOffset) = (x, y)` as live:
positions outside the texture width or at `genOffset ≥
maxVisibleGenerations` are background, otherwise the texel fetched at
`(x, y)` is live when its intensity exceeds 0.5, i.e. when the upload
wrote 255 there.  The age-based alpha fade is ignored, as the claim
directs. -/
def gpuLive (prev : List (List Bool)) (cells : List Bool) (M texW : Nat) (x y : Nat) : Bool :=
  if x < texW ∧ y < M then
    gpuDataBit (jsSliceLast M (prev ++ [cells])) texW (y * texW + x)
  else false

theorem jsSliceLast_of_le (m : Nat) (l : List α) (h : l.length ≤ m) :
    jsSliceLast m l = l := by
  unfold jsSliceLast
  split
  · rfl
  · rw [Nat.sub_eq_zero_of_le h, List.drop_zero]

/-- Row-major flat indices are unique while the column stays below the
stride. -/
theorem rowcol_unique (w y x y' x' : Nat) (hx : x < w) (hx' : x' < w)
    (h : y' * w + x' = y * w + x) : y' = y ∧ x' = x := by
  have key : ∀ a b u v : Nat, u < w → v < w → a * w + u = b * w + v → a < b → False := by
    intro a b u v hu hv heq hab
    have h1 : (a + 1) * w = a * w + w := by ring
    have h2 : (a + 1) * w ≤ b * w := Nat.mul_le_mul_right w hab
    omega
  have hyy : y' = y := by
    rcases Nat.lt_trichotomy y' y with hlt | heq | hgt
    · exact absurd (key y' y x' x hx' hx h hlt) (by simp)
    · exact heq
    · exact absurd (key y y' x x' hx hx' h.symm hgt) (by simp)
  subst hyy
  constructor
  · rfl
  · omega

/-- When every row fits the stride, the texel at `(x, y)` is live
exactly when row `y` exists and holds a true cell at column `x`. -/
theorem gpuDataBit_eq (visible : List (List Bool)) (texW x y : Nat)
    (hrows : ∀ g ∈ visible, g.length ≤ texW) (hx : x < texW) :
    gpuDataBit visible texW (y * texW + x) =
      (decide (y < visible.length) && (visible.getD y []).getD x false) := by
  rw [Bool.eq_iff_iff]
  simp only [gpuDataBit, List.any_eq_true, List.mem_range, Bool.and_eq_true,
    beq_iff_eq, decide_eq_true_eq]
  constructor
  · rintro ⟨y', hy', x', hx'', heq, hcell⟩
    have hyrow : (visible.getD y' []).length ≤ texW := by
      apply hrows
      rw [List.getD_eq_getElem?_getD, List.getElem?_eq_getElem hy']
      exact List.getElem_mem hy'
    have := rowcol_unique texW y x y' x' hx (by omega) heq
    obtain ⟨rfl, rfl⟩ := this
    exact ⟨hy', hcell⟩
  · rintro ⟨hy, hcell⟩
    have hxr : x < (visible.getD y []).length := by
      by_contra hcon
      push_neg at hcon
      rw [List.getD_eq_default _ _ hcon] at hcell
      exact Bool.false_ne_true hcell
    exact ⟨y, hy, x, hxr, rfl, hcell⟩

/-- C5 counterexample: with a full history window (`M = 1`, one stored
generation `[true]`, current generation `[false]`) the Canvas2D
renderer draws the stored generation at row 0 (and the current one at
row 1), while the GPU path encodes only the last `M` rows of
`history ++ current` — so at cell position `(0, 0)` the CPU draws live
and the GPU samples dead, and the two live sets differ. -/
theorem cpu_gpu_live_sets_differ_when_history_full :
    cpuLive [[true]] [false] 1 0 0 = true ∧
    gpuLive [[true]] [false] 1 (pow2ceil 1) 0 0 = false := by
  have h1 : pow2ceil 1 = 1 := by
    unfold pow2ceil
    rw [Nat.clog_one_right]
    rfl
  rw [h1]
  decide

/-- C5 amended: as long as the history window is not yet full
(`|previousGenerations| < maxVisibleGenerations`), the Canvas2D
renderer and the GPU texture-encoding/display-shader addressing agree on
every live position (ignoring the GPU fade); once the window is full,
the CPU shows `M` history rows plus the current generation while the
GPU shows only the last `M` rows of `history ++ current`, and the sets
differ (see the counterexample). -/
theorem cpu_gpu_live_agree_below_capacity (prev : List (List Bool)) (cells : List Bool)
    (M N x y : Nat) (hN : 1 ≤ N) (hc : cells.length = N)
    (hp : ∀ g ∈ prev, g.length = N) (hM : prev.length < M) :
    cpuLive prev cells M x y = gpuLive prev cells M (pow2ceil N) x y := by
  have hNtw : N ≤ pow2ceil N := Nat.le_pow_clog (by norm_num) N
  set texW := pow2ceil N with htw
  have hvis1 : jsSliceLast M prev = prev := jsSliceLast_of_le M prev (by omega)
  have hvis2 : jsSliceLast M (prev ++ [cells]) = prev ++ [cells] := by
    apply jsSliceLast_of_le
    rw [List.length_append, List.length_cons, List.length_nil]
    omega
  have hrows : ∀ g ∈ prev ++ [cells], g.length ≤ texW := by
    intro g hg
    rcases List.mem_append.mp hg with hg | hg
    · rw [hp g hg]; exact hNtw
    · rw [List.mem_singleton.mp hg, hc]; exact hNtw
  have hlen2 : (prev ++ [cells]).length = prev.length + 1 := by
    rw [List.length_append, List.length_cons, List.length_nil]
  by_cases hx : x < texW
  · by_cases hyM : y < M
    · have hgpu : gpuLive prev cells M texW x y =
          (decide (y < (prev ++ [cells]).length) &&
            ((prev ++ [cells]).getD y []).getD x false) := by
        unfold gpuLive
        rw [if_pos (And.intro hx hyM), hvis2,
          gpuDataBit_eq (prev ++ [cells]) texW x y hrows hx]
      rcases Nat.lt_trichotomy y prev.length with hy | hy | hy
      · have hcpu : cpuLive prev cells M x y = (prev.getD y []).getD x false := by
          unfold cpuLive
          rw [hvis1, if_pos hy]
        have hget : (prev ++ [cells]).getD y [] = prev.getD y [] := by
          rw [List.getD_eq_getElem?_getD, List.getD_eq_getElem?_getD,
            List.getElem?_append_left hy]
        rw [hcpu, hgpu, hget, decide_eq_true (by omega)]
        simp
      · have hcpu : cpuLive prev cells M x y = cells.getD x false := by
          unfold cpuLive
          rw [hvis1, if_neg (by omega), if_pos hy]
        have hlen3 : y < (prev ++ [cells]).length := by omega
        have hget : (prev ++ [cells]).getD y [] = cells := by
          rw [List.getD_eq_getElem?_getD, List.getElem?_eq_getElem hlen3]
          simp [List.getElem_concat_length _ _ _ hy]
        rw [hcpu, hgpu, hget, decide_eq_true (by omega)]
        simp
      · have hcpu : cpuLive prev cells M x y = false := by
          unfold cpuLive
          rw [hvis1, if_neg (by omega), if_neg (by omega)]
        rw [hcpu, hgpu, decide_eq_false (by omega)]
        simp
    · have hgpu : gpuLive prev cells M texW x y = false := by
        unfold gpuLive
        rw [if_neg (fun h => hyM h.2)]
      have hcpu : cpuLive prev cells M x y = false := by
        unfold cpuLive
        rw [hvis1, if_neg (by omega), if_neg (by omega)]
      rw [hcpu, hgpu]
  · have hgpu : gpuLive prev cells M texW x y = false := by
      unfold gpuLive
      rw [if_neg (fun h => hx h.1)]
    rw [hgpu]
    unfold cpuLive
    rw [hvis1]
    rcases Nat.lt_trichotomy y prev.length with hy | hy | hy
    · rw [if_pos hy]
      apply List.getD_eq_default
      have hmem : prev.getD y [] ∈ prev := by
        rw [List.getD_eq_getElem?_getD, List.getElem?_eq_getElem hy]
        exact List.getElem_mem hy
      rw [hp _ hmem]
      omega
    · rw [if_neg (by omega), if_pos hy]
      apply List.getD_eq_default
      omega
    · rw [if_neg (by omega), if_neg (by omega)]

/-- Witness for C5: empty history, one-cell live generation, `M = 1`. -/
theorem cpu_gpu_live_agree_below_capacity_witness :
    ((1 : Nat) ≤ 1 ∧ ([true] : List Bool).length = 1 ∧
      (∀ g ∈ ([] : List (List Bool)), g.length = 1) ∧
      ([] : List (List Bool)).length < 1) ∧
    cpuLive [] [true] 1 0 0 = gpuLive [] [true] 1 (pow2ceil 1) 0 0 :=
  ⟨⟨by decide, by decide, by simp, by decide⟩,
    cpu_gpu_live_agree_below_capacity [] [true] 1 1 0 0 (by decide) (by decide)
      (by simp) (by decide)⟩
